import Mathlib

set_option maxHeartbeats 1000000

/-!
Verification development for the Groops membership workflow
(internal/handlers/group.go together with the GroupMember / Group models).

The embedding models the relational store as lists of records and each HTTP
handler as a pure function from a store and its inputs to a response and an
updated store.  Time is unix seconds (an Int); the code compares times with
time.Now().After and time.Until(...) < time.Hour, which is one-second
granularity here.  Database writes for secondary effects (activity log,
notifications) can fail; this is modelled by the SideFx oracle.  Primary-key
conflicts of the membership table (composite key groupID, username) and of the
group table (id) are modelled; other transient store failures are not.
-/

namespace Groops

/-- Membership record, embedding the GroupMember model: composite primary key
(GroupID, Username), a free-form status string (pending / approved / rejected)
and the JoinedAt / UpdatedAt timestamps. -/
structure GroupMember where
  groupID : String
  username : String
  status : String
  joinedAt : Int
  updatedAt : Int
  deriving DecidableEq, Repr

/-- Group record, embedding the Group model restricted to the fields the
membership workflow reads: ID, Name, DateTime, MaxMembers and OrganiserID
(location, cost, skill level and the other descriptive fields never influence
the membership handlers). -/
structure Group where
  id : String
  name : String
  dateTime : Int
  maxMembers : Int
  organiserID : String
  deriving DecidableEq, Repr

/-- Notification record, embedding the Notification model. -/
structure Notification where
  recipientUsername : String
  ntype : String
  message : String
  groupID : String
  createdAt : Int
  read : Bool
  deriving DecidableEq, Repr

/-- Activity-log record, embedding the ActivityLog model. -/
structure ActivityLog where
  username : String
  eventType : String
  groupID : String
  timestamp : Int
  deriving DecidableEq, Repr

/-- The relational store: groups, group_members, notifications and
activity_logs tables, plus the set of existing account usernames (the
handlers only ever look accounts up by username). -/
structure DB where
  groups : List Group
  members : List GroupMember
  notifications : List Notification
  activities : List ActivityLog
  accounts : List String
  deriving DecidableEq, Repr

/-- HTTP response: status code and body message. -/
structure HResp where
  status : Nat
  body : String
  deriving DecidableEq, Repr

/-- Failure oracle for secondary writes.  logOk n tells whether the n-th
db.Create of an activity-log row succeeds (the handler code only ever makes
attempt 0); notifOk tells whether a notification insert succeeds. -/
structure SideFx where
  logOk : Nat → Bool
  notifOk : Bool

/-- One hour in seconds, the hard-coded lockout interval of the handlers. -/
def hour : Int := 3600

/-- Embeds db.Where(id = ?).First(group): first group row with the given id. -/
def findGroup (db : DB) (gid : String) : Option Group :=
  db.groups.find? (fun g => g.id == gid)

/-- Embeds db.Where(group_id = ? AND username = ?).First(member). -/
def findMember (db : DB) (gid u : String) : Option GroupMember :=
  db.members.find? (fun m => m.groupID == gid && m.username == u)

/-- Embeds db.Where(group_id = ? AND username = ? AND status = ?).First. -/
def findMemberWithStatus (db : DB) (gid u st : String) : Option GroupMember :=
  db.members.find? (fun m => m.groupID == gid && m.username == u && m.status == st)

/-- Row predicate of the capacity query: group_id = gid AND status = approved. -/
def isApprovedIn (gid : String) (m : GroupMember) : Bool :=
  m.groupID == gid && m.status == "approved"

/-- Embeds the capacity count
db.Model(GroupMember).Where(group_id = ? AND status = approved).Count. -/
def approvedCount (db : DB) (gid : String) : Nat :=
  db.members.countP (isApprovedIn gid)

/-- Embeds db.Save(member) / db.Model(member).Update: replaces the row with
the same composite primary key (groupID, username). -/
def saveMember (db : DB) (m : GroupMember) : DB :=
  { db with members :=
      db.members.map (fun x => if x.groupID == m.groupID && x.username == m.username then m else x) }

/-- Embeds db.Delete(member): removes the row with the composite key. -/
def deleteMember (db : DB) (gid u : String) : DB :=
  { db with members :=
      db.members.filter (fun x => !(x.groupID == gid && x.username == u)) }

/-- Embeds LogActivity (group.go lines 418 to 433): builds an ActivityLog row
and performs exactly one db.Create, returning its error.  Result components:
the updated store, the success flag, the number of create attempts performed,
and the list of backoff sleeps performed (in seconds). -/
def logActivity (fx : SideFx) (db : DB) (now : Int) (username eventType groupID : String) :
    DB × Bool × Nat × List Int :=
  if fx.logOk 0 then
    ({ db with activities :=
        db.activities ++ [{ username := username, eventType := eventType,
                            groupID := groupID, timestamp := now }] },
     true, 1, [])
  else
    (db, false, 1, [])

/-- Embeds the createNotification helper (group.go lines 436 to 446). -/
def createNotification (fx : SideFx) (db : DB) (now : Int)
    (recipient ntype message groupID : String) : DB × Bool :=
  if fx.notifOk then
    ({ db with notifications :=
        db.notifications ++ [{ recipientUsername := recipient, ntype := ntype,
                               message := message, groupID := groupID,
                               createdAt := now, read := false }] },
     true)
  else
    (db, false)

/-- Embeds the tail of JoinGroup (group.go lines 516 to 559), reached when the
existing-membership switch falls through (no row, or a row whose status is not
one of the three known strings): the capacity count, the insert of a fresh
pending row (whose composite-key conflict surfaces as a 500), the activity log
and the organiser notification. -/
def joinGroupInsert (fx : SideFx) (db : DB) (now : Int) (groupID username : String)
    (group : Group) : HResp × DB :=
  if group.maxMembers ≤ (approvedCount db groupID : Int) then
    ({ status := 403, body := "Group is full" }, db)
  else
    match findMember db groupID username with
    | some _ => ({ status := 500, body := "Failed to request to join group" }, db)
    | none =>
      let db1 : DB :=
        { db with members :=
            db.members ++ [{ groupID := groupID, username := username,
                             status := "pending", joinedAt := now, updatedAt := now }] }
      let db2 := (logActivity fx db1 now username "join_group_request" groupID).1
      let db3 := (createNotification fx db2 now group.organiserID "join_request"
                    (username ++ " requested to join your group " ++ group.name) groupID).1
      ({ status := 201, body := "Join request submitted" }, db3)

/-- Embeds JoinGroup (group.go lines 449 to 560).  Order of checks follows the
source: group lookup, event-passed check, one-hour lockout, existing-membership
switch (approved and pending conflict, rejected is resubmitted), then the
fall-through capacity check and insert (joinGroupInsert).  The email send does
not touch the store and is omitted. -/
def joinGroup (fx : SideFx) (db : DB) (now : Int) (groupID username : String) :
    HResp × DB :=
  match findGroup db groupID with
  | none => ({ status := 404, body := "Group not found" }, db)
  | some group =>
    if group.dateTime < now then
      ({ status := 400, body := "Cannot join group after the event has ended" }, db)
    else if group.dateTime - now < hour then
      ({ status := 400, body := "Cannot join group within 1 hour of the event" }, db)
    else
      match findMember db groupID username with
      | some member =>
        if member.status == "approved" then
          ({ status := 409, body := "Already a member" }, db)
        else if member.status == "pending" then
          ({ status := 409, body := "Join request already pending" }, db)
        else if member.status == "rejected" then
          let updated : GroupMember :=
            { member with status := "pending", updatedAt := now, joinedAt := now }
          let db1 := saveMember db updated
          let db2 := (logActivity fx db1 now username "join_group_request" groupID).1
          let db3 := (createNotification fx db2 now group.organiserID "join_request"
                        (username ++ " requested to join your group " ++ group.name) groupID).1
          ({ status := 201, body := "Join request re-submitted" }, db3)
        else
          joinGroupInsert fx db now groupID username group
      | none => joinGroupInsert fx db now groupID username group

/-- Embeds LeaveGroup (group.go lines 563 to 632): group lookup, organiser
guard, event-time guards, membership lookup, status guard, delete, then the
secondary log and notification writes. -/
def leaveGroup (fx : SideFx) (db : DB) (now : Int) (groupID username : String) :
    HResp × DB :=
  match findGroup db groupID with
  | none => ({ status := 404, body := "Group not found" }, db)
  | some group =>
    if group.organiserID == username then
      ({ status := 403, body := "Organizer cannot leave their own group" }, db)
    else if group.dateTime < now then
      ({ status := 400, body := "Cannot leave group after the event has ended" }, db)
    else if group.dateTime - now < hour then
      ({ status := 400, body := "Cannot leave group within 1 hour of the event" }, db)
    else
      match findMember db groupID username with
      | none => ({ status := 404, body := "Not a group member" }, db)
      | some member =>
        if !(member.status == "approved") && !(member.status == "pending") then
          ({ status := 403, body := "Cannot leave group with current status" }, db)
        else
          let db1 := deleteMember db groupID username
          let db2 := (logActivity fx db1 now username "leave_group" groupID).1
          let db3 := (createNotification fx db2 now group.organiserID "leave_group"
                        (username ++ " has left your group " ++ group.name) groupID).1
          ({ status := 200, body := "Left group successfully" }, db3)

/-- Embeds the read-only prefix of ApproveJoinRequest (group.go lines 676 to
705): group lookup, organiser guard, pending-member lookup and the capacity
count.  The code runs these as separate statements before the status update,
with no transaction around the count and the update. -/
def approvePhase1 (db : DB) (groupID username requester : String) :
    Except HResp (Group × GroupMember) :=
  match findGroup db groupID with
  | none => .error { status := 404, body := "Group not found" }
  | some group =>
    if !(group.organiserID == requester) then
      .error { status := 403, body := "Only the organizer can approve members" }
    else
      match findMemberWithStatus db groupID username "pending" with
      | none => .error { status := 404, body := "Pending join request not found" }
      | some member =>
        if group.maxMembers ≤ (approvedCount db groupID : Int) then
          .error { status := 403, body := "Group is full" }
        else
          .ok (group, member)

/-- Embeds the loop of ApproveJoinRequest (group.go lines 724 to 738) that
notifies every approved member other than the newly approved user and the
organiser; the member list is read after the status update. -/
def notifyExistingMembers (fx : SideFx) (db : DB) (now : Int) (group : Group)
    (newUsername : String) : DB :=
  (db.members.filter
      (fun m => m.groupID == group.id && m.status == "approved" && !(m.username == newUsername))).foldl
    (fun d m =>
      if !(m.username == group.organiserID) then
        (createNotification fx d now m.username "member_joined"
          (newUsername ++ " has joined your group " ++ group.name) group.id).1
      else d)
    db

/-- Embeds the write suffix of ApproveJoinRequest (group.go lines 707 to 752):
the status update (whose BeforeSave hook refreshes UpdatedAt), the activity
log, the approval notification, and the member-joined notifications.  The
approval email does not touch the store and is omitted. -/
def approvePhase2 (fx : SideFx) (db : DB) (now : Int) (group : Group)
    (member : GroupMember) : HResp × DB :=
  let db1 := saveMember db { member with status := "approved", updatedAt := now }
  let db2 := (logActivity fx db1 now member.username "join_group_approved" group.id).1
  let db3 := (createNotification fx db2 now member.username "join_approved"
                ("Your request to join group " ++ group.name ++ " was approved") group.id).1
  let db4 := notifyExistingMembers fx db3 now group member.username
  ({ status := 200, body := "Member approved" }, db4)

/-- Embeds ApproveJoinRequest (group.go lines 667 to 752) as the sequential
composition of its read prefix and write suffix. -/
def approveJoinRequest (fx : SideFx) (db : DB) (now : Int)
    (groupID username requester : String) : HResp × DB :=
  match approvePhase1 db groupID username requester with
  | .error resp => (resp, db)
  | .ok (group, member) => approvePhase2 fx db now group member

/-- Embeds RejectJoinRequest (group.go lines 755 to 804): group lookup,
organiser guard, pending-member lookup, status update to rejected (BeforeSave
refreshes UpdatedAt), then the secondary log and notification writes. -/
def rejectJoinRequest (fx : SideFx) (db : DB) (now : Int)
    (groupID username requester : String) : HResp × DB :=
  match findGroup db groupID with
  | none => ({ status := 404, body := "Group not found" }, db)
  | some group =>
    if !(group.organiserID == requester) then
      ({ status := 403, body := "Only the organizer can reject members" }, db)
    else
      match findMemberWithStatus db groupID username "pending" with
      | none => ({ status := 404, body := "Pending join request not found" }, db)
      | some member =>
        let db1 := saveMember db { member with status := "rejected", updatedAt := now }
        let db2 := (logActivity fx db1 now username "join_group_rejected" groupID).1
        let db3 := (createNotification fx db2 now username "join_rejected"
                      ("Your request to join group " ++ group.name ++ " was rejected") groupID).1
        ({ status := 200, body := "Member rejected" }, db3)

/-- Embeds RemoveMember (group.go lines 854 to 944): group lookup, organiser
guard, event-time guards, approved-member lookup, the guard refusing to remove
the organiser, the delete, then notification and activity log.  The removal
email does not touch the store and is omitted. -/
def removeMember (fx : SideFx) (db : DB) (now : Int)
    (groupID memberUsername organizerUsername : String) : HResp × DB :=
  match findGroup db groupID with
  | none => ({ status := 404, body := "Group not found" }, db)
  | some group =>
    if !(group.organiserID == organizerUsername) then
      ({ status := 403, body := "Only the organizer can remove members" }, db)
    else if group.dateTime < now then
      ({ status := 400, body := "Cannot remove members after the event has ended" }, db)
    else if group.dateTime - now < hour then
      ({ status := 400, body := "Cannot remove members within 1 hour of the event" }, db)
    else
      match findMemberWithStatus db groupID memberUsername "approved" with
      | none => ({ status := 404, body := "Member not found or not approved" }, db)
      | some _ =>
        if memberUsername == organizerUsername then
          ({ status := 400, body := "Organizer cannot be removed" }, db)
        else
          let db1 := deleteMember db groupID memberUsername
          let db2 := (createNotification fx db1 now memberUsername "removed_from_group"
                        ("You have been removed from group " ++ group.name) groupID).1
          let db3 := (logActivity fx db2 now organizerUsername "remove_member" groupID).1
          ({ status := 200, body := "Member removed successfully" }, db3)

/-- Request body of CreateGroup restricted to the fields the workflow reads;
the binding tags of the model require max_members between 2 and 50. -/
structure CreateGroupRequest where
  name : String
  dateTime : Int
  maxMembers : Int
  description : String
  deriving DecidableEq, Repr

/-- Embeds the binding validation of CreateGroupRequest:
max_members carries binding required,min=2,max=50. -/
def bindCreateGroupRequest (req : CreateGroupRequest) : Bool :=
  2 ≤ req.maxMembers && req.maxMembers ≤ 50

/-- Embeds CreateGroup (group.go lines 19 to 95): binding validation, the
future-date check, the authentication check, the organiser account lookup, the
group insert (id conflicts surface as 500), and the insert of the organiser
membership row with status approved.  As in the source there is no transaction:
if the member insert fails the group row remains. -/
def createGroup (fx : SideFx) (db : DB) (now : Int) (req : CreateGroupRequest)
    (organizerUsername newID : String) : HResp × DB :=
  if !(bindCreateGroupRequest req) then
    ({ status := 400, body := "Invalid input" }, db)
  else if req.dateTime < now then
    ({ status := 400, body := "Event date must be in the future" }, db)
  else if organizerUsername == "" then
    ({ status := 401, body := "Not authenticated" }, db)
  else if !(db.accounts.contains organizerUsername) then
    ({ status := 404, body := "Organizer not found" }, db)
  else if (findGroup db newID).isSome then
    ({ status := 500, body := "Failed to create group" }, db)
  else
    let group : Group :=
      { id := newID, name := req.name, dateTime := req.dateTime,
        maxMembers := req.maxMembers, organiserID := organizerUsername }
    let db1 : DB := { db with groups := db.groups ++ [group] }
    match findMember db1 newID organizerUsername with
    | some _ => ({ status := 500, body := "Failed to add organizer as member" }, db1)
    | none =>
      let db2 : DB :=
        { db1 with members :=
            db1.members ++ [{ groupID := newID, username := organizerUsername,
                              status := "approved", joinedAt := now, updatedAt := now }] }
      let db3 := (logActivity fx db2 now organizerUsername "create_group" newID).1
      ({ status := 201, body := "Created" }, db3)

/-- Initial store: some registered accounts, all tables empty. -/
def DB.init (accounts : List String) : DB :=
  { groups := [], members := [], notifications := [], activities := [], accounts := accounts }

/-- One membership-workflow operation applied to the store: group creation,
join, leave, approve, reject or remove, each with arbitrary caller inputs,
time and side-effect oracle. -/
inductive Step : DB → DB → Prop where
  | create (fx : SideFx) (db : DB) (now : Int) (req : CreateGroupRequest)
      (organizerUsername newID : String) :
      Step db (createGroup fx db now req organizerUsername newID).2
  | join (fx : SideFx) (db : DB) (now : Int) (groupID username : String) :
      Step db (joinGroup fx db now groupID username).2
  | leave (fx : SideFx) (db : DB) (now : Int) (groupID username : String) :
      Step db (leaveGroup fx db now groupID username).2
  | approve (fx : SideFx) (db : DB) (now : Int) (groupID username requester : String) :
      Step db (approveJoinRequest fx db now groupID username requester).2
  | reject (fx : SideFx) (db : DB) (now : Int) (groupID username requester : String) :
      Step db (rejectJoinRequest fx db now groupID username requester).2
  | remove (fx : SideFx) (db : DB) (now : Int) (groupID memberUsername organizerUsername : String) :
      Step db (removeMember fx db now groupID memberUsername organizerUsername).2

/-- A store is reachable when some finite sequence of workflow operations
produces it from an initial store. -/
def Reachable (db : DB) : Prop :=
  ∃ accounts : List String, Relation.ReflTransGen Step (DB.init accounts) db

/-- Composite primary key of the membership table. -/
def memKey (m : GroupMember) : String × String := (m.groupID, m.username)

/-- The one-hour join window of a group is still open at the given time. -/
def windowOpen (now : Int) (g : Group) : Prop :=
  ¬(g.dateTime < now) ∧ ¬(g.dateTime - now < hour)

/-- State invariant maintained by the workflow: every group is within
capacity, every membership row points at an existing group, every group has
its organiser as an approved member, membership keys are unique (the composite
primary key) and group ids are unique (the primary key). -/
structure Inv (db : DB) : Prop where
  capacity : ∀ g ∈ db.groups, (approvedCount db g.id : Int) ≤ g.maxMembers
  memHasGroup : ∀ m ∈ db.members, ∃ g ∈ db.groups, g.id = m.groupID
  orgApproved : ∀ g ∈ db.groups, ∃ m ∈ db.members,
    m.groupID = g.id ∧ m.username = g.organiserID ∧ m.status = "approved"
  memKeysUnique : db.members.Pairwise (fun a b => memKey a ≠ memKey b)
  groupIdsUnique : db.groups.Pairwise (fun a b => a.id ≠ b.id)

/-! Helper lemmas about the store queries and mutators. -/

lemma keyCond_eq {y m : GroupMember} :
    (y.groupID == m.groupID && y.username == m.username) = true ↔ memKey y = memKey m := by
  simp [memKey, Prod.ext_iff]

lemma findGroup_some {db : DB} {gid : String} {g : Group} (h : findGroup db gid = some g) :
    g ∈ db.groups ∧ g.id = gid := by
  refine ⟨List.mem_of_find?_eq_some h, ?_⟩
  have := List.find?_some h
  simpa using this

lemma findGroup_none {db : DB} {gid : String} (h : findGroup db gid = none) :
    ∀ g ∈ db.groups, g.id ≠ gid := by
  intro g hg
  have := List.find?_eq_none.mp h g hg
  simpa using this

lemma findMember_some {db : DB} {gid u : String} {m : GroupMember}
    (h : findMember db gid u = some m) :
    m ∈ db.members ∧ m.groupID = gid ∧ m.username = u := by
  refine ⟨List.mem_of_find?_eq_some h, ?_⟩
  have := List.find?_some h
  simpa using this

lemma findMember_none {db : DB} {gid u : String} (h : findMember db gid u = none) :
    ∀ m ∈ db.members, ¬(m.groupID = gid ∧ m.username = u) := by
  intro m hm
  have := List.find?_eq_none.mp h m hm
  simpa using this

lemma findMemberWithStatus_some {db : DB} {gid u st : String} {m : GroupMember}
    (h : findMemberWithStatus db gid u st = some m) :
    m ∈ db.members ∧ m.groupID = gid ∧ m.username = u ∧ m.status = st := by
  refine ⟨List.mem_of_find?_eq_some h, ?_⟩
  have := List.find?_some h
  simp at this
  exact ⟨this.1.1, this.1.2, this.2⟩

lemma findMemberWithStatus_none {db : DB} {gid u st : String}
    (h : findMemberWithStatus db gid u st = none) :
    ∀ m ∈ db.members, ¬(m.groupID = gid ∧ m.username = u ∧ m.status = st) := by
  intro m hm
  have := List.find?_eq_none.mp h m hm
  simpa using this

lemma unique_key_eq {l : List GroupMember}
    (h : l.Pairwise (fun a b => memKey a ≠ memKey b))
    {a b : GroupMember} (ha : a ∈ l) (hb : b ∈ l) (hk : memKey a = memKey b) : a = b := by
  induction l with
  | nil => cases ha
  | cons x xs ih =>
    rw [List.pairwise_cons] at h
    obtain ⟨hx, hxs⟩ := h
    rcases List.mem_cons.mp ha with ha1 | ha1 <;> rcases List.mem_cons.mp hb with hb1 | hb1
    · rw [ha1, hb1]
    · exact absurd (ha1 ▸ hk) (hx b hb1)
    · exact absurd (hb1 ▸ hk).symm (hx a ha1)
    · exact ih hxs ha1 hb1

lemma unique_id_eq {l : List Group}
    (h : l.Pairwise (fun a b => a.id ≠ b.id))
    {a b : Group} (ha : a ∈ l) (hb : b ∈ l) (hk : a.id = b.id) : a = b := by
  induction l with
  | nil => cases ha
  | cons x xs ih =>
    rw [List.pairwise_cons] at h
    obtain ⟨hx, hxs⟩ := h
    rcases List.mem_cons.mp ha with ha1 | ha1 <;> rcases List.mem_cons.mp hb with hb1 | hb1
    · rw [ha1, hb1]
    · exact absurd (ha1 ▸ hk) (hx b hb1)
    · exact absurd (hb1 ▸ hk).symm (hx a ha1)
    · exact ih hxs ha1 hb1

lemma findMember_eq_of_mem {db : DB}
    (huniq : db.members.Pairwise (fun a b => memKey a ≠ memKey b))
    {m : GroupMember} (hm : m ∈ db.members) :
    findMember db m.groupID m.username = some m := by
  unfold findMember
  cases hf : db.members.find? (fun x => x.groupID == m.groupID && x.username == m.username) with
  | none =>
    exfalso
    have := List.find?_eq_none.mp hf m hm
    simp at this
  | some y =>
    have hy := List.mem_of_find?_eq_some hf
    have hp := List.find?_some hf
    have hk : memKey y = memKey m := by
      simp only [memKey]
      have := hp
      simp at this
      simp [this.1, this.2]
    rw [unique_key_eq huniq hy hm hk]

/-! Projection lemmas: the secondary-effect writers leave groups and members
untouched. -/

@[simp] lemma logActivity_members (fx : SideFx) (db : DB) (now : Int) (a b c : String) :
    ((logActivity fx db now a b c).1).members = db.members := by
  unfold logActivity; split <;> rfl

@[simp] lemma logActivity_groups (fx : SideFx) (db : DB) (now : Int) (a b c : String) :
    ((logActivity fx db now a b c).1).groups = db.groups := by
  unfold logActivity; split <;> rfl

@[simp] lemma createNotification_members (fx : SideFx) (db : DB) (now : Int) (a b c d : String) :
    ((createNotification fx db now a b c d).1).members = db.members := by
  unfold createNotification; split <;> rfl

@[simp] lemma createNotification_groups (fx : SideFx) (db : DB) (now : Int) (a b c d : String) :
    ((createNotification fx db now a b c d).1).groups = db.groups := by
  unfold createNotification; split <;> rfl

lemma foldl_members {α : Type} {l : List α} {f : DB → α → DB}
    (hf : ∀ d m, (f d m).members = d.members) :
    ∀ d : DB, (l.foldl f d).members = d.members := by
  induction l with
  | nil => intro d; rfl
  | cons x xs ih => intro d; rw [List.foldl_cons, ih, hf]

lemma foldl_groups {α : Type} {l : List α} {f : DB → α → DB}
    (hf : ∀ d m, (f d m).groups = d.groups) :
    ∀ d : DB, (l.foldl f d).groups = d.groups := by
  induction l with
  | nil => intro d; rfl
  | cons x xs ih => intro d; rw [List.foldl_cons, ih, hf]

@[simp] lemma notifyExistingMembers_members (fx : SideFx) (db : DB) (now : Int)
    (g : Group) (u : String) :
    (notifyExistingMembers fx db now g u).members = db.members := by
  unfold notifyExistingMembers
  apply foldl_members
  intro d m
  split <;> simp

@[simp] lemma notifyExistingMembers_groups (fx : SideFx) (db : DB) (now : Int)
    (g : Group) (u : String) :
    (notifyExistingMembers fx db now g u).groups = db.groups := by
  unfold notifyExistingMembers
  apply foldl_groups
  intro d m
  split <;> simp

@[simp] lemma saveMember_groups (db : DB) (m : GroupMember) :
    (saveMember db m).groups = db.groups := rfl

@[simp] lemma deleteMember_groups (db : DB) (gid u : String) :
    (deleteMember db gid u).groups = db.groups := rfl

lemma approvedCount_congr {db1 db2 : DB} (h : db1.members = db2.members) (gid : String) :
    approvedCount db1 gid = approvedCount db2 gid := by
  unfold approvedCount; rw [h]

/-! Counting and key lemmas for the row-update and row-delete mutators. -/

lemma memKey_update (mNew x : GroupMember) :
    memKey (if x.groupID == mNew.groupID && x.username == mNew.username then mNew else x)
      = memKey x := by
  by_cases h : (x.groupID == mNew.groupID && x.username == mNew.username) = true
  · rw [if_pos h]
    exact (keyCond_eq.mp h).symm
  · rw [if_neg h]

lemma countP_map_update {l : List GroupMember} {m0 mNew : GroupMember} (p : GroupMember → Bool)
    (huniq : l.Pairwise (fun a b => memKey a ≠ memKey b))
    (hm : m0 ∈ l) (hk : memKey mNew = memKey m0) :
    (l.map (fun x => if x.groupID == mNew.groupID && x.username == mNew.username then mNew else x)).countP p
      + (if p m0 then 1 else 0)
    = l.countP p + (if p mNew then 1 else 0) := by
  induction l with
  | nil => cases hm
  | cons x xs ih =>
    rw [List.pairwise_cons] at huniq
    obtain ⟨hx, hxs⟩ := huniq
    by_cases hcond : (x.groupID == mNew.groupID && x.username == mNew.username) = true
    · have hkx : memKey x = memKey m0 := by rw [keyCond_eq.mp hcond, hk]
      have hxm : x = m0 := by
        rcases List.mem_cons.mp hm with hm1 | hm1
        · rw [hm1]
        · exact absurd hkx (hx m0 hm1)
      have htail : xs.map (fun y => if y.groupID == mNew.groupID && y.username == mNew.username then mNew else y) = xs := by
        have : ∀ y ∈ xs,
            (fun y => if y.groupID == mNew.groupID && y.username == mNew.username then mNew else y) y
              = id y := by
          intro y hy
          have hne : memKey y ≠ memKey mNew := by
            rw [hk, ← hxm]
            intro hcontra
            exact hx y hy hcontra.symm
          simp only [id]
          exact if_neg (fun hc => hne (keyCond_eq.mp hc))
        rw [List.map_congr_left this, List.map_id]
      rw [List.map_cons, if_pos hcond, htail, List.countP_cons, List.countP_cons, ← hxm]
      omega
    · have hxm0 : m0 ∈ xs := by
        rcases List.mem_cons.mp hm with hm1 | hm1
        · exfalso
          apply hcond
          rw [keyCond_eq, hk, hm1]
        · exact hm1
      have := ih hxs hxm0
      rw [List.map_cons, if_neg hcond, List.countP_cons, List.countP_cons]
      omega

lemma approvedCount_saveMember (db : DB) {m0 : GroupMember} (mNew : GroupMember)
    (huniq : db.members.Pairwise (fun a b => memKey a ≠ memKey b))
    (hm : m0 ∈ db.members) (hk : memKey mNew = memKey m0) (gid : String) :
    approvedCount (saveMember db mNew) gid + (if isApprovedIn gid m0 then 1 else 0)
      = approvedCount db gid + (if isApprovedIn gid mNew then 1 else 0) :=
  countP_map_update (isApprovedIn gid) huniq hm hk

lemma saveMember_mem_cases {db : DB} {mNew y : GroupMember}
    (hy : y ∈ (saveMember db mNew).members) : y = mNew ∨ y ∈ db.members := by
  simp only [saveMember, List.mem_map] at hy
  obtain ⟨x, hx, hfx⟩ := hy
  by_cases hc : (x.groupID == mNew.groupID && x.username == mNew.username) = true
  · rw [if_pos hc] at hfx
    exact Or.inl hfx.symm
  · rw [if_neg hc] at hfx
    exact Or.inr (hfx ▸ hx)

lemma saveMember_mem_of_ne {db : DB} {mNew x : GroupMember}
    (hx : x ∈ db.members) (hne : memKey x ≠ memKey mNew) :
    x ∈ (saveMember db mNew).members := by
  simp only [saveMember]
  have hfx : (fun y => if y.groupID == mNew.groupID && y.username == mNew.username then mNew else y) x = x :=
    if_neg (fun hc => hne (keyCond_eq.mp hc))
  have hmm := List.mem_map_of_mem
    (fun y => if y.groupID == mNew.groupID && y.username == mNew.username then mNew else y) hx
  rw [hfx] at hmm
  exact hmm

lemma saveMember_mem_new {db : DB} {m0 : GroupMember} (mNew : GroupMember)
    (hm : m0 ∈ db.members) (hk : memKey mNew = memKey m0) :
    mNew ∈ (saveMember db mNew).members := by
  simp only [saveMember]
  have hc : (m0.groupID == mNew.groupID && m0.username == mNew.username) = true := by
    rw [keyCond_eq]; exact hk.symm
  have hfx : (fun y => if y.groupID == mNew.groupID && y.username == mNew.username then mNew else y) m0 = mNew :=
    if_pos hc
  have hmm := List.mem_map_of_mem
    (fun y => if y.groupID == mNew.groupID && y.username == mNew.username then mNew else y) hm
  rw [hfx] at hmm
  exact hmm

lemma saveMember_pairwise {db : DB} (mNew : GroupMember)
    (huniq : db.members.Pairwise (fun a b => memKey a ≠ memKey b)) :
    (saveMember db mNew).members.Pairwise (fun a b => memKey a ≠ memKey b) := by
  simp only [saveMember]
  rw [List.pairwise_map]
  exact huniq.imp (fun hab => by rw [memKey_update, memKey_update]; exact hab)

lemma deleteMember_mem {db : DB} {gid u : String} {x : GroupMember}
    (hx : x ∈ db.members) (hne : ¬(x.groupID = gid ∧ x.username = u)) :
    x ∈ (deleteMember db gid u).members := by
  simp only [deleteMember, List.mem_filter]
  refine ⟨hx, ?_⟩
  simp only [Bool.not_eq_eq_eq_not, Bool.not_true, Bool.and_eq_false_iff]
  by_cases h1 : x.groupID = gid
  · right
    simp only [beq_eq_false_iff_ne, ne_eq]
    exact fun h2 => hne ⟨h1, h2⟩
  · left
    simp only [beq_eq_false_iff_ne, ne_eq]
    exact h1

lemma deleteMember_sublist (db : DB) (gid u : String) :
    (deleteMember db gid u).members.Sublist db.members :=
  List.filter_sublist db.members

/-! Invariant preservation building blocks. -/

lemma inv_of_eq {db1 db2 : DB} (hg : db2.groups = db1.groups)
    (hm : db2.members = db1.members) (h : Inv db1) : Inv db2 := by
  refine ⟨?_, ?_, ?_, ?_, ?_⟩
  · intro g hgmem
    rw [hg] at hgmem
    have := h.capacity g hgmem
    unfold approvedCount at this ⊢
    rw [hm]
    exact this
  · intro m hmm
    rw [hm] at hmm
    rw [hg]
    exact h.memHasGroup m hmm
  · intro g hgmem
    rw [hg] at hgmem
    rw [hm]
    exact h.orgApproved g hgmem
  · rw [hm]; exact h.memKeysUnique
  · rw [hg]; exact h.groupIdsUnique

lemma inv_saveMember {db : DB} (m0 mNew : GroupMember)
    (h : Inv db) (hm0 : m0 ∈ db.members) (hk : memKey mNew = memKey m0)
    (hm0st : m0.status ≠ "approved")
    (hcap : mNew.status = "approved" →
      ∀ g ∈ db.groups, g.id = m0.groupID →
        (approvedCount db m0.groupID : Int) + 1 ≤ g.maxMembers) :
    Inv (saveMember db mNew) := by
  have hkg : mNew.groupID = m0.groupID := congrArg Prod.fst hk
  have hpm0 : ∀ gid, isApprovedIn gid m0 = false := by
    intro gid
    have : (m0.status == "approved") = false := beq_eq_false_iff_ne.mpr hm0st
    simp [isApprovedIn, this]
  refine ⟨?_, ?_, ?_, ?_, ?_⟩
  · intro g hgmem
    rw [saveMember_groups] at hgmem
    have hold := h.capacity g hgmem
    have hcount := approvedCount_saveMember db mNew h.memKeysUnique hm0 hk g.id
    rw [hpm0] at hcount
    simp only [if_neg (by simp : ¬(false = true))] at hcount
    by_cases hgid : g.id = m0.groupID
    · by_cases hst : mNew.status = "approved"
      · have hpnew : isApprovedIn g.id mNew = true := by
          simp [isApprovedIn, hkg, hgid, hst]
        rw [hpnew] at hcount
        simp at hcount
        have hc := hcap hst g hgmem hgid
        have hsame : approvedCount db m0.groupID = approvedCount db g.id := by rw [hgid]
        rw [hsame] at hc
        omega
      · have hpnew : isApprovedIn g.id mNew = false := by
          have hb : (mNew.status == "approved") = false := beq_eq_false_iff_ne.mpr hst
          simp [isApprovedIn, hb]
        rw [hpnew] at hcount
        simp only [if_neg (by simp : ¬(false = true))] at hcount
        omega
    · have hpnew : isApprovedIn g.id mNew = false := by
        have h1 : (mNew.groupID == g.id) = false := by
          rw [hkg]
          exact beq_eq_false_iff_ne.mpr (fun he => hgid he.symm)
        simp [isApprovedIn, h1]
      rw [hpnew] at hcount
      simp only [if_neg (by simp : ¬(false = true))] at hcount
      omega
  · intro m hmm
    rcases saveMember_mem_cases hmm with rfl | hmem
    · rw [saveMember_groups]
      obtain ⟨g, hg, hgid⟩ := h.memHasGroup m0 hm0
      exact ⟨g, hg, by rw [hgid, hkg]⟩
    · rw [saveMember_groups]
      exact h.memHasGroup m hmem
  · intro g hgmem
    rw [saveMember_groups] at hgmem
    obtain ⟨morg, hmorg, h1, h2, h3⟩ := h.orgApproved g hgmem
    have hne : memKey morg ≠ memKey mNew := by
      rw [hk]
      intro he
      have heq := unique_key_eq h.memKeysUnique hmorg hm0 he
      rw [heq] at h3
      exact hm0st h3
    exact ⟨morg, saveMember_mem_of_ne hmorg hne, h1, h2, h3⟩
  · exact saveMember_pairwise mNew h.memKeysUnique
  · have : (saveMember db mNew).groups = db.groups := saveMember_groups db mNew
    rw [this]
    exact h.groupIdsUnique

lemma inv_appendPending {db : DB} {gid u : String} (now : Int) {g : Group}
    (h : Inv db) (hg : g ∈ db.groups) (hgid : g.id = gid)
    (hnone : findMember db gid u = none) :
    Inv { db with members :=
      db.members ++ [{ groupID := gid, username := u, status := "pending",
                       joinedAt := now, updatedAt := now }] } := by
  refine ⟨?_, ?_, ?_, ?_, ?_⟩
  · intro g2 hg2
    have hold := h.capacity g2 hg2
    unfold approvedCount at hold ⊢
    rw [List.countP_append]
    simpa [isApprovedIn] using hold
  · intro m hmm
    rcases List.mem_append.mp hmm with hmem | hmem
    · exact h.memHasGroup m hmem
    · simp only [List.mem_singleton] at hmem
      exact ⟨g, hg, by rw [hmem, hgid]⟩
  · intro g2 hg2
    obtain ⟨morg, hmorg, hh⟩ := h.orgApproved g2 hg2
    exact ⟨morg, List.mem_append_left _ hmorg, hh⟩
  · rw [List.pairwise_append]
    refine ⟨h.memKeysUnique, List.pairwise_singleton _ _, ?_⟩
    intro a ha b hb
    simp only [List.mem_singleton] at hb
    have := findMember_none hnone a ha
    rw [hb]
    simp only [memKey, ne_eq, Prod.mk.injEq, not_and]
    intro h1 h2
    exact this ⟨h1, h2⟩
  · exact h.groupIdsUnique

lemma inv_deleteMember (db : DB) (gid u : String)
    (h : Inv db)
    (horg : ∀ g ∈ db.groups, g.id = gid → g.organiserID ≠ u) :
    Inv (deleteMember db gid u) := by
  refine ⟨?_, ?_, ?_, ?_, ?_⟩
  · intro g hgmem
    rw [deleteMember_groups] at hgmem
    have hold := h.capacity g hgmem
    have hle : approvedCount (deleteMember db gid u) g.id ≤ approvedCount db g.id := by
      unfold approvedCount
      exact (deleteMember_sublist db gid u).countP_le _
    omega
  · intro m hmm
    have hmem : m ∈ db.members := (deleteMember_sublist db gid u).subset hmm
    rw [deleteMember_groups]
    exact h.memHasGroup m hmem
  · intro g hgmem
    rw [deleteMember_groups] at hgmem
    obtain ⟨morg, hmorg, h1, h2, h3⟩ := h.orgApproved g hgmem
    refine ⟨morg, deleteMember_mem hmorg ?_, h1, h2, h3⟩
    rintro ⟨ha, hb⟩
    exact horg g hgmem (h1 ▸ ha) (h2 ▸ hb)
  · exact List.Pairwise.sublist (deleteMember_sublist db gid u) h.memKeysUnique
  · have : (deleteMember db gid u).groups = db.groups := deleteMember_groups db gid u
    rw [this]
    exact h.groupIdsUnique

lemma inv_init (accounts : List String) : Inv (DB.init accounts) := by
  refine ⟨?_, ?_, ?_, ?_, ?_⟩ <;> simp [DB.init, approvedCount]

/-! Per-operation preservation of the invariant. -/

lemma inv_joinGroupInsert (fx : SideFx) (db : DB) (now : Int) (gid u : String)
    {group : Group} (h : Inv db) (hgmem : group ∈ db.groups) (hgid : group.id = gid) :
    Inv (joinGroupInsert fx db now gid u group).2 := by
  unfold joinGroupInsert
  split
  · exact h
  · split
    · exact h
    · rename_i hmnone
      dsimp only
      refine inv_of_eq (by simp) (by simp) (inv_appendPending now h hgmem hgid hmnone)

lemma inv_joinGroup (fx : SideFx) (db : DB) (now : Int) (gid u : String)
    (h : Inv db) : Inv (joinGroup fx db now gid u).2 := by
  unfold joinGroup
  split
  · exact h
  · rename_i group hg
    obtain ⟨hgmem, hgid⟩ := findGroup_some hg
    split
    · exact h
    · split
      · exact h
      · split
        · rename_i member hm
          split
          · exact h
          · split
            · exact h
            · split
              · rename_i hnapp hnpend hrej
                obtain ⟨hmem, hmgid, hmu⟩ := findMember_some hm
                have hm0st : member.status ≠ "approved" := by
                  intro he
                  rw [he] at hnapp
                  simp at hnapp
                dsimp only
                refine inv_of_eq (by simp) (by simp)
                  (inv_saveMember member
                    { member with status := "pending", updatedAt := now, joinedAt := now }
                    h hmem rfl hm0st ?_)
                intro hc
                simp at hc
              · exact inv_joinGroupInsert fx db now gid u h hgmem hgid
        · exact inv_joinGroupInsert fx db now gid u h hgmem hgid

lemma approvePhase1_ok {db : DB} {gid u requester : String} {group : Group}
    {member : GroupMember}
    (hp : approvePhase1 db gid u requester = .ok (group, member)) :
    findGroup db gid = some group ∧ group.organiserID = requester ∧
    findMemberWithStatus db gid u "pending" = some member ∧
    (approvedCount db gid : Int) < group.maxMembers := by
  unfold approvePhase1 at hp
  split at hp
  · exact absurd hp (by simp)
  · rename_i g hg
    split at hp
    · exact absurd hp (by simp)
    · rename_i hauth
      split at hp
      · exact absurd hp (by simp)
      · rename_i m hm
        split at hp
        · exact absurd hp (by simp)
        · rename_i hcap
          simp only [Except.ok.injEq, Prod.mk.injEq] at hp
          obtain ⟨h1, h2⟩ := hp
          subst h1
          subst h2
          refine ⟨hg, ?_, hm, ?_⟩
          · simpa using hauth
          · omega

lemma inv_approveJoinRequest (fx : SideFx) (db : DB) (now : Int)
    (gid u requester : String) (h : Inv db) :
    Inv (approveJoinRequest fx db now gid u requester).2 := by
  unfold approveJoinRequest
  split
  · exact h
  · rename_i group member hp
    obtain ⟨hg, hauth, hm, hcap⟩ := approvePhase1_ok hp
    obtain ⟨hgmem, hgid⟩ := findGroup_some hg
    obtain ⟨hmem, hmgid, hmu, hmst⟩ := findMemberWithStatus_some hm
    unfold approvePhase2
    dsimp only
    refine inv_of_eq (by simp) (by simp)
      (inv_saveMember member { member with status := "approved", updatedAt := now }
        h hmem rfl ?_ ?_)
    · rw [hmst]; decide
    · intro _ g2 hg2 hgid2
      have hg2eq : g2 = group := by
        apply unique_id_eq h.groupIdsUnique hg2 hgmem
        rw [hgid2, hmgid, hgid]
      rw [hg2eq, hmgid]
      omega

lemma inv_rejectJoinRequest (fx : SideFx) (db : DB) (now : Int)
    (gid u requester : String) (h : Inv db) :
    Inv (rejectJoinRequest fx db now gid u requester).2 := by
  unfold rejectJoinRequest
  split
  · exact h
  · rename_i group hg
    split
    · exact h
    · split
      · exact h
      · rename_i member hm
        obtain ⟨hmem, hmgid, hmu, hmst⟩ := findMemberWithStatus_some hm
        dsimp only
        refine inv_of_eq (by simp) (by simp)
          (inv_saveMember member { member with status := "rejected", updatedAt := now }
            h hmem rfl ?_ ?_)
        · rw [hmst]; decide
        · intro hc
          simp at hc

lemma inv_leaveGroup (fx : SideFx) (db : DB) (now : Int) (gid u : String)
    (h : Inv db) : Inv (leaveGroup fx db now gid u).2 := by
  unfold leaveGroup
  split
  · exact h
  · rename_i group hg
    obtain ⟨hgmem, hgid⟩ := findGroup_some hg
    split
    · exact h
    · rename_i hnorg
      split
      · exact h
      · split
        · exact h
        · split
          · exact h
          · rename_i member hm
            split
            · exact h
            · dsimp only
              refine inv_of_eq (by simp) (by simp) (inv_deleteMember db gid u h ?_)
              intro g2 hg2 hgid2
              have hg2eq : g2 = group :=
                unique_id_eq h.groupIdsUnique hg2 hgmem (by rw [hgid2, hgid])
              rw [hg2eq]
              intro he
              rw [he] at hnorg
              simp at hnorg

lemma inv_removeMember (fx : SideFx) (db : DB) (now : Int)
    (gid memberUsername organizerUsername : String) (h : Inv db) :
    Inv (removeMember fx db now gid memberUsername organizerUsername).2 := by
  unfold removeMember
  split
  · exact h
  · rename_i group hg
    obtain ⟨hgmem, hgid⟩ := findGroup_some hg
    split
    · exact h
    · rename_i hauth
      split
      · exact h
      · split
        · exact h
        · split
          · exact h
          · rename_i member hm
            split
            · exact h
            · rename_i hnself
              dsimp only
              refine inv_of_eq (by simp) (by simp)
                (inv_deleteMember db gid memberUsername h ?_)
              intro g2 hg2 hgid2
              have hg2eq : g2 = group :=
                unique_id_eq h.groupIdsUnique hg2 hgmem (by rw [hgid2, hgid])
              rw [hg2eq]
              have horgeq : group.organiserID = organizerUsername := by
                simpa using hauth
              rw [horgeq]
              intro he
              rw [he] at hnself
              simp at hnself

lemma inv_createAppend (db : DB) (now : Int) (group : Group)
    (h : Inv db) (hfresh : ∀ g ∈ db.groups, g.id ≠ group.id)
    (hmax : 2 ≤ group.maxMembers) :
    Inv { db with
      groups := db.groups ++ [group],
      members := db.members ++ [{ groupID := group.id, username := group.organiserID,
                                  status := "approved", joinedAt := now, updatedAt := now }] } := by
  have hnomem : ∀ m ∈ db.members, m.groupID ≠ group.id := by
    intro m hm he
    obtain ⟨g2, hg2, hgid2⟩ := h.memHasGroup m hm
    exact hfresh g2 hg2 (by rw [hgid2, he])
  refine ⟨?_, ?_, ?_, ?_, ?_⟩
  · intro g2 hg2
    unfold approvedCount
    simp only [List.countP_append]
    rcases List.mem_append.mp hg2 with hg2m | hg2m
    · have hold := h.capacity g2 hg2m
      unfold approvedCount at hold
      have hzero : (List.countP (isApprovedIn g2.id)
          [{ groupID := group.id, username := group.organiserID,
             status := "approved", joinedAt := now, updatedAt := now }]) = 0 := by
        rw [List.countP_eq_zero]
        intro a ha
        simp only [List.mem_singleton] at ha
        rw [ha]
        have : (group.id == g2.id) = false :=
          beq_eq_false_iff_ne.mpr (fun he => hfresh g2 hg2m he.symm)
        simp [isApprovedIn, this]
      rw [hzero]
      omega
    · simp only [List.mem_singleton] at hg2m
      rw [hg2m]
      have hzero : List.countP (isApprovedIn group.id) db.members = 0 := by
        rw [List.countP_eq_zero]
        intro a ha
        have : (a.groupID == group.id) = false :=
          beq_eq_false_iff_ne.mpr (hnomem a ha)
        simp [isApprovedIn, this]
      rw [hzero]
      have hone : (List.countP (isApprovedIn group.id)
          [{ groupID := group.id, username := group.organiserID,
             status := "approved", joinedAt := now, updatedAt := now }]) = 1 := by
        simp [isApprovedIn]
      rw [hone]
      omega
  · intro m hmm
    rcases List.mem_append.mp hmm with hmem | hmem
    · obtain ⟨g2, hg2, hgid2⟩ := h.memHasGroup m hmem
      exact ⟨g2, List.mem_append_left _ hg2, hgid2⟩
    · simp only [List.mem_singleton] at hmem
      refine ⟨group, List.mem_append_right _ (by simp), ?_⟩
      rw [hmem]
  · intro g2 hg2
    rcases List.mem_append.mp hg2 with hg2m | hg2m
    · obtain ⟨morg, hmorg, hh⟩ := h.orgApproved g2 hg2m
      exact ⟨morg, List.mem_append_left _ hmorg, hh⟩
    · simp only [List.mem_singleton] at hg2m
      refine ⟨{ groupID := group.id, username := group.organiserID,
                status := "approved", joinedAt := now, updatedAt := now },
              List.mem_append_right _ (by simp), ?_, ?_, rfl⟩
      · rw [hg2m]
      · rw [hg2m]
  · rw [List.pairwise_append]
    refine ⟨h.memKeysUnique, List.pairwise_singleton _ _, ?_⟩
    intro a ha b hb
    simp only [List.mem_singleton] at hb
    rw [hb]
    simp only [memKey, ne_eq, Prod.mk.injEq, not_and]
    intro h1 _
    exact absurd h1 (hnomem a ha)
  · rw [List.pairwise_append]
    refine ⟨h.groupIdsUnique, List.pairwise_singleton _ _, ?_⟩
    intro a ha b hb
    simp only [List.mem_singleton] at hb
    rw [hb]
    exact hfresh a ha

lemma inv_createGroup (fx : SideFx) (db : DB) (now : Int) (req : CreateGroupRequest)
    (organizerUsername newID : String) (h : Inv db) :
    Inv (createGroup fx db now req organizerUsername newID).2 := by
  unfold createGroup
  split
  · exact h
  · rename_i hbind
    split
    · exact h
    · split
      · exact h
      · split
        · exact h
        · split
          · exact h
          · rename_i hnotsome
            have hnone : findGroup db newID = none := by
              rcases hf : findGroup db newID with _ | g
              · rfl
              · exfalso
                apply hnotsome
                rw [hf]
                rfl
            dsimp only
            split
            · rename_i m hm
              exfalso
              obtain ⟨hmem, hmgid, hmu⟩ := findMember_some hm
              simp only at hmem
              obtain ⟨g2, hg2, hgid2⟩ := h.memHasGroup m hmem
              exact findGroup_none hnone g2 hg2 (by rw [hgid2, hmgid])
            · rename_i hmnone
              dsimp only
              have hmax : 2 ≤ req.maxMembers := by
                have hb : bindCreateGroupRequest req = true := by
                  by_contra hc
                  exact hbind (by simp [hc])
                unfold bindCreateGroupRequest at hb
                simp at hb
                exact hb.1
              refine inv_of_eq (by simp) (by simp)
                (inv_createAppend db now
                  { id := newID, name := req.name, dateTime := req.dateTime,
                    maxMembers := req.maxMembers, organiserID := organizerUsername }
                  h ?_ hmax)
              intro g2 hg2
              exact findGroup_none hnone g2 hg2

/-- Every workflow operation preserves the invariant. -/
lemma inv_step {db db2 : DB} (h : Inv db) (hs : Step db db2) : Inv db2 := by
  cases hs with
  | create fx db now req organizerUsername newID =>
    exact inv_createGroup fx db now req organizerUsername newID h
  | join fx db now groupID username =>
    exact inv_joinGroup fx db now groupID username h
  | leave fx db now groupID username =>
    exact inv_leaveGroup fx db now groupID username h
  | approve fx db now groupID username requester =>
    exact inv_approveJoinRequest fx db now groupID username requester h
  | reject fx db now groupID username requester =>
    exact inv_rejectJoinRequest fx db now groupID username requester h
  | remove fx db now groupID memberUsername organizerUsername =>
    exact inv_removeMember fx db now groupID memberUsername organizerUsername h

/-- Every reachable store satisfies the invariant. -/
lemma inv_reachable {db : DB} (h : Reachable db) : Inv db := by
  obtain ⟨accounts, hchain⟩ := h
  induction hchain with
  | refl => exact inv_init accounts
  | tail hab hbc ih => exact inv_step ih hbc

/-! Branch characterizations of joinGroup, used to settle the join-related
claims. -/

lemma findMember_congr {db1 db2 : DB} (h : db1.members = db2.members) (gid u : String) :
    findMember db1 gid u = findMember db2 gid u := by
  unfold findMember; rw [h]

lemma findMember_saveMember {db : DB} {gid u : String} {m0 : GroupMember} (mNew : GroupMember)
    (hm : findMember db gid u = some m0) (hk : memKey mNew = (gid, u)) :
    findMember (saveMember db mNew) gid u = some mNew := by
  obtain ⟨hmem, hmg, hmu⟩ := findMember_some hm
  have h1 : mNew.groupID = gid := congrArg Prod.fst hk
  have h2 : mNew.username = u := congrArg Prod.snd hk
  unfold findMember at hm ⊢
  unfold saveMember
  simp only
  rw [List.find?_map]
  have hfun : ((fun m => m.groupID == gid && m.username == u) ∘
      (fun x => if x.groupID == mNew.groupID && x.username == mNew.username then mNew else x))
      = (fun m => m.groupID == gid && m.username == u) := by
    funext x
    simp only [Function.comp]
    by_cases hc : (x.groupID == mNew.groupID && x.username == mNew.username) = true
    · rw [if_pos hc]
      have hx := keyCond_eq.mp hc
      have hxg0 : x.groupID = mNew.groupID := congrArg Prod.fst hx
      have hxu0 : x.username = mNew.username := congrArg Prod.snd hx
      have hxg : x.groupID = gid := by rw [hxg0, h1]
      have hxu : x.username = u := by rw [hxu0, h2]
      simp [h1, h2, hxg, hxu]
    · rw [if_neg hc]
  rw [hfun, hm]
  have hc : (m0.groupID == mNew.groupID && m0.username == mNew.username) = true := by
    rw [keyCond_eq]
    simp only [memKey, hmg, hmu]
    rw [h1, h2]
  show some (if m0.groupID == mNew.groupID && m0.username == mNew.username then mNew else m0)
      = some mNew
  rw [if_pos hc]

lemma joinGroup_nogroup_eq (fx : SideFx) (db : DB) (now : Int) (gid u : String)
    (hg : findGroup db gid = none) :
    joinGroup fx db now gid u = ({ status := 404, body := "Group not found" }, db) := by
  unfold joinGroup
  rw [hg]

lemma joinGroup_after_eq (fx : SideFx) (db : DB) (now : Int) (gid u : String)
    {g : Group} (hg : findGroup db gid = some g) (hafter : g.dateTime < now) :
    joinGroup fx db now gid u
      = ({ status := 400, body := "Cannot join group after the event has ended" }, db) := by
  unfold joinGroup
  rw [hg]
  simp only [if_pos hafter]

lemma joinGroup_soon_eq (fx : SideFx) (db : DB) (now : Int) (gid u : String)
    {g : Group} (hg : findGroup db gid = some g) (hnafter : ¬(g.dateTime < now))
    (hsoon : g.dateTime - now < hour) :
    joinGroup fx db now gid u
      = ({ status := 400, body := "Cannot join group within 1 hour of the event" }, db) := by
  unfold joinGroup
  rw [hg]
  simp only [if_neg hnafter, if_pos hsoon]

lemma joinGroup_approved_eq (fx : SideFx) (db : DB) (now : Int) (gid u : String)
    {g : Group} {m : GroupMember}
    (hg : findGroup db gid = some g) (hw : windowOpen now g)
    (hm : findMember db gid u = some m) (hst : m.status = "approved") :
    joinGroup fx db now gid u = ({ status := 409, body := "Already a member" }, db) := by
  obtain ⟨hw1, hw2⟩ := hw
  unfold joinGroup
  rw [hg]
  simp only [if_neg hw1, if_neg hw2]
  rw [hm]
  simp only [hst]
  rfl

lemma joinGroup_pending_eq (fx : SideFx) (db : DB) (now : Int) (gid u : String)
    {g : Group} {m : GroupMember}
    (hg : findGroup db gid = some g) (hw : windowOpen now g)
    (hm : findMember db gid u = some m) (hst : m.status = "pending") :
    joinGroup fx db now gid u
      = ({ status := 409, body := "Join request already pending" }, db) := by
  obtain ⟨hw1, hw2⟩ := hw
  unfold joinGroup
  rw [hg]
  simp only [if_neg hw1, if_neg hw2]
  rw [hm]
  simp only [hst]
  rfl

lemma joinGroup_rejected_eq (fx : SideFx) (db : DB) (now : Int) (gid u : String)
    {g : Group} {m : GroupMember}
    (hg : findGroup db gid = some g) (hw : windowOpen now g)
    (hm : findMember db gid u = some m) (hst : m.status = "rejected") :
    (joinGroup fx db now gid u).1 = { status := 201, body := "Join request re-submitted" } ∧
    (joinGroup fx db now gid u).2.members
      = (saveMember db { m with status := "pending", updatedAt := now, joinedAt := now }).members := by
  obtain ⟨hw1, hw2⟩ := hw
  unfold joinGroup
  rw [hg]
  simp only [if_neg hw1, if_neg hw2]
  rw [hm]
  simp only [hst]
  refine ⟨rfl, ?_⟩
  simp

lemma joinGroup_full_eq (fx : SideFx) (db : DB) (now : Int) (gid u : String)
    {g : Group}
    (hg : findGroup db gid = some g) (hw : windowOpen now g)
    (hm : findMember db gid u = none)
    (hcap : g.maxMembers ≤ (approvedCount db gid : Int)) :
    joinGroup fx db now gid u = ({ status := 403, body := "Group is full" }, db) := by
  obtain ⟨hw1, hw2⟩ := hw
  unfold joinGroup
  rw [hg]
  simp only [if_neg hw1, if_neg hw2]
  rw [hm]
  unfold joinGroupInsert
  simp only [if_pos hcap]

lemma joinGroup_insert_eq (fx : SideFx) (db : DB) (now : Int) (gid u : String)
    {g : Group}
    (hg : findGroup db gid = some g) (hw : windowOpen now g)
    (hm : findMember db gid u = none)
    (hcap : (approvedCount db gid : Int) < g.maxMembers) :
    (joinGroup fx db now gid u).1 = { status := 201, body := "Join request submitted" } ∧
    (joinGroup fx db now gid u).2.members
      = db.members ++ [{ groupID := gid, username := u, status := "pending",
                         joinedAt := now, updatedAt := now }] := by
  obtain ⟨hw1, hw2⟩ := hw
  unfold joinGroup
  rw [hg]
  simp only [if_neg hw1, if_neg hw2]
  rw [hm]
  unfold joinGroupInsert
  simp only [if_neg (not_le.mpr hcap)]
  rw [hm]
  refine ⟨rfl, ?_⟩
  simp

/-! Concrete fixtures used by witnesses and counterexamples. -/

/-- Oracle where every secondary write succeeds. -/
def fxAll : SideFx := { logOk := fun _ => true, notifOk := true }

/-- Oracle where every activity-log write fails. -/
def fxNoLog : SideFx := { logOk := fun _ => false, notifOk := true }

/-- Empty store. -/
def db0 : DB := DB.init []

/-- A valid create-group request. -/
def reqW : CreateGroupRequest :=
  { name := "hike", dateTime := 100000, maxMembers := 2, description := "walk" }

/-- Store obtained by one successful group creation from an initial store. -/
def dbW : DB := (createGroup fxAll (DB.init ["org"]) 0 reqW "org" "g1").2

/-- The group living in dbW. -/
def gW : Group :=
  { id := "g1", name := "hike", dateTime := 100000, maxMembers := 2, organiserID := "org" }

lemma reachable_dbW : Reachable dbW :=
  ⟨["org"], Relation.ReflTransGen.single
    (Step.create fxAll (DB.init ["org"]) 0 reqW "org" "g1")⟩

/-- A group at capacity 2 with organiser and one further approved member. -/
def gC2 : Group :=
  { id := "g1", name := "hike", dateTime := 100000, maxMembers := 2, organiserID := "org" }

def orgRowC2 : GroupMember :=
  { groupID := "g1", username := "org", status := "approved", joinedAt := 0, updatedAt := 0 }

def bobRowC2 : GroupMember :=
  { groupID := "g1", username := "bob", status := "approved", joinedAt := 1, updatedAt := 1 }

def carolRowC2 : GroupMember :=
  { groupID := "g1", username := "carol", status := "pending", joinedAt := 2, updatedAt := 2 }

/-- Store where gC2 is at capacity and carol has a pending request. -/
def dbC2 : DB :=
  { groups := [gC2], members := [orgRowC2, bobRowC2, carolRowC2],
    notifications := [], activities := [], accounts := ["org", "bob", "carol"] }

/-! Claim theorems. -/

/-- C1: for every reachable state of the membership store, the number of
membership rows with status approved in each group G is at most G.maxMembers,
and every workflow operation (group creation, join, approve, reject, leave,
remove — the constructors of Step) preserves the bound. -/
theorem capacity_invariant (db : DB) (h : Reachable db) :
    (∀ g ∈ db.groups, (approvedCount db g.id : Int) ≤ g.maxMembers) ∧
    ∀ db2, Step db db2 → ∀ g ∈ db2.groups, (approvedCount db2 g.id : Int) ≤ g.maxMembers := by
  have hinv := inv_reachable h
  exact ⟨hinv.capacity, fun db2 hs => (inv_step hinv hs).capacity⟩

theorem capacity_invariant_witness :
    Reachable dbW ∧
    ((∀ g ∈ dbW.groups, (approvedCount dbW g.id : Int) ≤ g.maxMembers) ∧
     ∀ db2, Step dbW db2 → ∀ g ∈ db2.groups, (approvedCount db2 g.id : Int) ≤ g.maxMembers) :=
  ⟨reachable_dbW, capacity_invariant dbW reachable_dbW⟩

/-- C2: approving a pending membership of a group whose approved count already
equals maxMembers fails with the capacity error (HTTP 403, body Group is full)
and leaves the store, hence the pending membership, unchanged. -/
theorem approve_at_capacity (fx : SideFx) (db : DB) (now : Int)
    (gid u requester : String) (g : Group) (m : GroupMember)
    (hg : findGroup db gid = some g)
    (hauth : g.organiserID = requester)
    (hm : findMemberWithStatus db gid u "pending" = some m)
    (hcap : (approvedCount db gid : Int) = g.maxMembers) :
    approveJoinRequest fx db now gid u requester
      = ({ status := 403, body := "Group is full" }, db) := by
  have hphase : approvePhase1 db gid u requester
      = .error { status := 403, body := "Group is full" } := by
    unfold approvePhase1
    rw [hg]
    dsimp only
    rw [hauth]
    simp only [beq_self_eq_true, Bool.not_true, Bool.false_eq_true, if_false]
    rw [hm]
    simp only [if_pos (le_of_eq hcap.symm)]
  unfold approveJoinRequest
  rw [hphase]

theorem approve_at_capacity_witness :
    (findGroup dbC2 "g1" = some gC2 ∧ gC2.organiserID = "org" ∧
     findMemberWithStatus dbC2 "g1" "carol" "pending" = some carolRowC2 ∧
     (approvedCount dbC2 "g1" : Int) = gC2.maxMembers) ∧
    approveJoinRequest fxAll dbC2 5 "g1" "carol" "org"
      = ({ status := 403, body := "Group is full" }, dbC2) :=
  ⟨⟨by decide, by decide, by decide, by decide⟩,
   approve_at_capacity fxAll dbC2 5 "g1" "carol" "org" gC2 carolRowC2
     (by decide) (by decide) (by decide) (by decide)⟩

/-- Race fixture: group with two slots, one taken by the organiser, and two
pending users, so exactly one approved slot remains. -/
def raceM1 : GroupMember :=
  { groupID := "g1", username := "u1", status := "pending", joinedAt := 1, updatedAt := 1 }

def raceM2 : GroupMember :=
  { groupID := "g1", username := "u2", status := "pending", joinedAt := 2, updatedAt := 2 }

def raceDB : DB :=
  { groups := [gC2], members := [orgRowC2, raceM1, raceM2],
    notifications := [], activities := [], accounts := ["org", "u1", "u2"] }

/-- C3: the code contradicts the claim.  ApproveJoinRequest performs the
capacity count and the status update as two separate store operations with no
transaction (approvePhase1 then approvePhase2).  In the interleaving where
both of the organiser approvals run their read phase against the same store
state before either write phase commits, both pass the capacity check, both
updates then succeed with HTTP 200, and the approved count ends at
maxMembers + 1 — the claim (and the spec) require exactly one success. -/
theorem approve_race_both_succeed :
    approvePhase1 raceDB "g1" "u1" "org" = .ok (gC2, raceM1) ∧
    approvePhase1 raceDB "g1" "u2" "org" = .ok (gC2, raceM2) ∧
    (approvePhase2 fxAll raceDB 5 gC2 raceM1).1.status = 200 ∧
    (approvePhase2 fxAll (approvePhase2 fxAll raceDB 5 gC2 raceM1).2 5 gC2 raceM2).1.status = 200 ∧
    (approvedCount (approvePhase2 fxAll (approvePhase2 fxAll raceDB 5 gC2 raceM1).2 5 gC2 raceM2).2 "g1" : Int)
      = gC2.maxMembers + 1 := by
  refine ⟨rfl, rfl, ?_, ?_, ?_⟩ <;> decide

/-- Fixture for C4: a one-slot group already filled by its auto-approved
organiser. -/
def gC4 : Group :=
  { id := "g1", name := "solo", dateTime := 100000, maxMembers := 1, organiserID := "org" }

def dbC4 : DB :=
  { groups := [gC4],
    members := [{ groupID := "g1", username := "org", status := "approved",
                  joinedAt := 0, updatedAt := 0 }],
    notifications := [], activities := [], accounts := ["org", "alice"] }

/-- C4 counterexample: with maxMembers = 1 and the organiser auto-approved,
user alice requesting to join does NOT obtain a pending membership as the
claim states: JoinGroup checks capacity before inserting and returns
403 Group is full, storing nothing. -/
theorem join_full_counterexample :
    joinGroup fxAll dbC4 0 "g1" "alice"
      = ({ status := 403, body := "Group is full" }, dbC4) ∧
    findMember (joinGroup fxAll dbC4 0 "g1" "alice").2 "g1" "alice" = none := by
  decide

/-- C4 amended: for a group whose approved count has reached maxMembers
(in particular maxMembers = 1 with the organiser auto-approved), a join
request by a non-member fails with 403 Group is full and no membership row is
created — capacity is enforced at request time. -/
theorem join_full_amended (fx : SideFx) (db : DB) (now : Int) (gid u : String)
    (g : Group)
    (hg : findGroup db gid = some g)
    (hw : windowOpen now g)
    (hm : findMember db gid u = none)
    (hcap : g.maxMembers ≤ (approvedCount db gid : Int)) :
    joinGroup fx db now gid u = ({ status := 403, body := "Group is full" }, db) :=
  joinGroup_full_eq fx db now gid u hg hw hm hcap

theorem join_full_amended_witness :
    (findGroup dbC4 "g1" = some gC4 ∧ windowOpen 0 gC4 ∧
     findMember dbC4 "g1" "alice" = none ∧
     gC4.maxMembers ≤ (approvedCount dbC4 "g1" : Int)) ∧
    joinGroup fxAll dbC4 0 "g1" "alice" = ({ status := 403, body := "Group is full" }, dbC4) :=
  ⟨⟨by decide, by constructor <;> decide, by decide, by decide⟩,
   join_full_amended fxAll dbC4 0 "g1" "alice" gC4
     (by decide) (by constructor <;> decide) (by decide) (by decide)⟩

/-- Fixture for C5: carol has a rejected membership in a group with free room. -/
def carolRejRow : GroupMember :=
  { groupID := "g1", username := "carol", status := "rejected", joinedAt := 2, updatedAt := 2 }

def dbC5 : DB :=
  { groups := [gC2], members := [orgRowC2, carolRejRow],
    notifications := [], activities := [], accounts := ["org", "carol"] }

/-- C5: a join re-request against an existing membership (group present, join
window open) yields 409 Conflict with the store unchanged when the status is
pending or approved, and when the status is rejected it succeeds with 201,
rewriting the row to status pending with joinedAt and updatedAt refreshed. -/
theorem join_rerequest_transitions (fx : SideFx) (db : DB) (now : Int)
    (gid u : String) (g : Group) (m : GroupMember)
    (hg : findGroup db gid = some g) (hw : windowOpen now g)
    (hm : findMember db gid u = some m) :
    (m.status = "approved" →
      joinGroup fx db now gid u = ({ status := 409, body := "Already a member" }, db)) ∧
    (m.status = "pending" →
      joinGroup fx db now gid u
        = ({ status := 409, body := "Join request already pending" }, db)) ∧
    (m.status = "rejected" →
      (joinGroup fx db now gid u).1 = { status := 201, body := "Join request re-submitted" } ∧
      findMember (joinGroup fx db now gid u).2 gid u
        = some { m with status := "pending", updatedAt := now, joinedAt := now }) := by
  refine ⟨fun hst => joinGroup_approved_eq fx db now gid u hg hw hm hst,
          fun hst => joinGroup_pending_eq fx db now gid u hg hw hm hst,
          fun hst => ?_⟩
  obtain ⟨h1, h2⟩ := joinGroup_rejected_eq fx db now gid u hg hw hm hst
  refine ⟨h1, ?_⟩
  rw [findMember_congr h2]
  apply findMember_saveMember _ hm
  obtain ⟨hmem, hmg, hmu⟩ := findMember_some hm
  simp [memKey, hmg, hmu]

theorem join_rerequest_transitions_witness :
    (findGroup dbC5 "g1" = some gC2 ∧ windowOpen 5 gC2 ∧
     findMember dbC5 "g1" "carol" = some carolRejRow) ∧
    (carolRejRow.status = "rejected" →
      (joinGroup fxAll dbC5 5 "g1" "carol").1
        = { status := 201, body := "Join request re-submitted" } ∧
      findMember (joinGroup fxAll dbC5 5 "g1" "carol").2 "g1" "carol"
        = some { carolRejRow with status := "pending", updatedAt := 5, joinedAt := 5 }) :=
  ⟨⟨by decide, by constructor <;> decide, by decide⟩,
   (join_rerequest_transitions fxAll dbC5 5 "g1" "carol" gC2 carolRejRow
     (by decide) (by constructor <;> decide) (by decide)).2.2⟩

/-- Fixture for C6: the group is at capacity (2 approved of maxMembers 2) and
carol holds a rejected membership. -/
def dbC6 : DB :=
  { groups := [gC2], members := [orgRowC2, bobRowC2, carolRejRow],
    notifications := [], activities := [], accounts := ["org", "bob", "carol"] }

/-- C6 counterexample: the claim says a rejected-to-pending re-request fails
when the approved count already equals maxMembers; in the code the rejected
branch of JoinGroup runs before the capacity count, so the re-request succeeds
with 201 and the row becomes pending even though the group is full. -/
theorem join_rerequest_full_counterexample :
    (approvedCount dbC6 "g1" : Int) = gC2.maxMembers ∧
    (joinGroup fxAll dbC6 5 "g1" "carol").1
      = { status := 201, body := "Join request re-submitted" } ∧
    findMember (joinGroup fxAll dbC6 5 "g1" "carol").2 "g1" "carol"
      = some { groupID := "g1", username := "carol", status := "pending",
               joinedAt := 5, updatedAt := 5 } := by
  decide

/-- C6 amended: the rejected-to-pending re-request transition is not guarded
by capacity.  Whenever the group exists, the window is open and the requester
holds a rejected membership row, the re-request succeeds (201) and the row
becomes pending with refreshed timestamps, regardless of the approved count;
capacity is checked only for brand-new join requests and at approval time. -/
theorem join_rerequest_ignores_capacity (fx : SideFx) (db : DB) (now : Int)
    (gid u : String) (g : Group) (m : GroupMember)
    (hg : findGroup db gid = some g) (hw : windowOpen now g)
    (hm : findMember db gid u = some m) (hst : m.status = "rejected") :
    (joinGroup fx db now gid u).1 = { status := 201, body := "Join request re-submitted" } ∧
    findMember (joinGroup fx db now gid u).2 gid u
      = some { m with status := "pending", updatedAt := now, joinedAt := now } := by
  obtain ⟨h1, h2⟩ := joinGroup_rejected_eq fx db now gid u hg hw hm hst
  refine ⟨h1, ?_⟩
  rw [findMember_congr h2]
  apply findMember_saveMember _ hm
  obtain ⟨hmem, hmg, hmu⟩ := findMember_some hm
  simp [memKey, hmg, hmu]

theorem join_rerequest_ignores_capacity_witness :
    (findGroup dbC6 "g1" = some gC2 ∧ windowOpen 5 gC2 ∧
     findMember dbC6 "g1" "carol" = some carolRejRow ∧ carolRejRow.status = "rejected") ∧
    ((joinGroup fxAll dbC6 5 "g1" "carol").1
        = { status := 201, body := "Join request re-submitted" } ∧
     findMember (joinGroup fxAll dbC6 5 "g1" "carol").2 "g1" "carol"
        = some { carolRejRow with status := "pending", updatedAt := 5, joinedAt := 5 }) :=
  ⟨⟨by decide, by constructor <;> decide, by decide, by decide⟩,
   join_rerequest_ignores_capacity fxAll dbC6 5 "g1" "carol" gC2 carolRejRow
     (by decide) (by constructor <;> decide) (by decide) (by decide)⟩

/-- C7: in every reachable store each group's organiser has a membership row
with status approved (from creation onward); an organiser's attempt to leave
their own group always fails with 403 Forbidden leaving the store unchanged;
removing the organiser via RemoveMember always fails with HTTP 400 (BadRequest)
leaving the store unchanged. -/
theorem organiser_protected (db : DB) (h : Reachable db) :
    (∀ g ∈ db.groups, ∃ m ∈ db.members,
      m.groupID = g.id ∧ m.username = g.organiserID ∧ m.status = "approved") ∧
    (∀ (fx : SideFx) (now : Int) (gid : String) (g : Group),
      findGroup db gid = some g →
      leaveGroup fx db now gid g.organiserID
        = ({ status := 403, body := "Organizer cannot leave their own group" }, db)) ∧
    (∀ (fx : SideFx) (now : Int) (gid : String) (g : Group),
      findGroup db gid = some g →
      (removeMember fx db now gid g.organiserID g.organiserID).1.status = 400 ∧
      (removeMember fx db now gid g.organiserID g.organiserID).2 = db) := by
  have hinv := inv_reachable h
  refine ⟨hinv.orgApproved, ?_, ?_⟩
  · intro fx now gid g hg
    unfold leaveGroup
    rw [hg]
    dsimp only
    rw [if_pos (beq_self_eq_true g.organiserID)]
  · intro fx now gid g hg
    unfold removeMember
    rw [hg]
    dsimp only
    have hbeq : (!(g.organiserID == g.organiserID)) = false := by simp
    rw [hbeq]
    simp only [Bool.false_eq_true, if_false]
    by_cases h1 : g.dateTime < now
    · rw [if_pos h1]
      exact ⟨rfl, rfl⟩
    · rw [if_neg h1]
      by_cases h2 : g.dateTime - now < hour
      · rw [if_pos h2]
        exact ⟨rfl, rfl⟩
      · rw [if_neg h2]
        obtain ⟨hgmem, hgid⟩ := findGroup_some hg
        obtain ⟨morg, hmorg, k1, k2, k3⟩ := hinv.orgApproved g hgmem
        cases hfm : findMemberWithStatus db gid g.organiserID "approved" with
        | none =>
          exfalso
          exact findMemberWithStatus_none hfm morg hmorg ⟨by rw [k1, hgid], k2, k3⟩
        | some y =>
          dsimp only
          rw [if_pos (beq_self_eq_true g.organiserID)]
          exact ⟨rfl, rfl⟩

theorem organiser_protected_witness :
    Reachable dbW ∧
    ((∀ g ∈ dbW.groups, ∃ m ∈ dbW.members,
       m.groupID = g.id ∧ m.username = g.organiserID ∧ m.status = "approved") ∧
     (∀ (fx : SideFx) (now : Int) (gid : String) (g : Group),
       findGroup dbW gid = some g →
       leaveGroup fx dbW now gid g.organiserID
         = ({ status := 403, body := "Organizer cannot leave their own group" }, dbW)) ∧
     (∀ (fx : SideFx) (now : Int) (gid : String) (g : Group),
       findGroup dbW gid = some g →
       (removeMember fx dbW now gid g.organiserID g.organiserID).1.status = 400 ∧
       (removeMember fx dbW now gid g.organiserID g.organiserID).2 = dbW)) :=
  ⟨reachable_dbW, organiser_protected dbW reachable_dbW⟩

/-- C8 counterexample: the claim maps the closed-window join to 403, but
JoinGroup answers 400 once the event has passed (and within the final hour):
joining at time 200000, past the event time 100000, yields status 400. -/
theorem join_window_status_counterexample :
    (joinGroup fxAll dbC4 200000 "g1" "alice").1.status = 400 ∧
    ¬((joinGroup fxAll dbC4 200000 "g1" "alice").1.status = 403) := by
  decide

/-- C8 amended: POST join returns 404 when the group is missing, 400 (not 403)
when the event has passed or starts within one hour, 409 on an existing
pending or approved membership (store unchanged), 201 on a resubmission after
rejection, 403 only when the group is full, and 201 on a fresh join with free
capacity. -/
theorem join_http_codes (fx : SideFx) (db : DB) (now : Int) (gid u : String) :
    (findGroup db gid = none →
      joinGroup fx db now gid u = ({ status := 404, body := "Group not found" }, db)) ∧
    (∀ g : Group, findGroup db gid = some g → g.dateTime < now →
      (joinGroup fx db now gid u).1.status = 400) ∧
    (∀ g : Group, findGroup db gid = some g → ¬(g.dateTime < now) →
      g.dateTime - now < hour → (joinGroup fx db now gid u).1.status = 400) ∧
    (∀ (g : Group) (m : GroupMember), findGroup db gid = some g → windowOpen now g →
      findMember db gid u = some m → (m.status = "approved" ∨ m.status = "pending") →
      (joinGroup fx db now gid u).1.status = 409 ∧ (joinGroup fx db now gid u).2 = db) ∧
    (∀ (g : Group) (m : GroupMember), findGroup db gid = some g → windowOpen now g →
      findMember db gid u = some m → m.status = "rejected" →
      (joinGroup fx db now gid u).1.status = 201) ∧
    (∀ g : Group, findGroup db gid = some g → windowOpen now g →
      findMember db gid u = none → g.maxMembers ≤ (approvedCount db gid : Int) →
      joinGroup fx db now gid u = ({ status := 403, body := "Group is full" }, db)) ∧
    (∀ g : Group, findGroup db gid = some g → windowOpen now g →
      findMember db gid u = none → (approvedCount db gid : Int) < g.maxMembers →
      (joinGroup fx db now gid u).1.status = 201) := by
  refine ⟨?_, ?_, ?_, ?_, ?_, ?_, ?_⟩
  · intro hg
    exact joinGroup_nogroup_eq fx db now gid u hg
  · intro g hg hafter
    rw [joinGroup_after_eq fx db now gid u hg hafter]
  · intro g hg hnafter hsoon
    rw [joinGroup_soon_eq fx db now gid u hg hnafter hsoon]
  · intro g m hg hw hm hst
    rcases hst with hst | hst
    · rw [joinGroup_approved_eq fx db now gid u hg hw hm hst]
      exact ⟨rfl, rfl⟩
    · rw [joinGroup_pending_eq fx db now gid u hg hw hm hst]
      exact ⟨rfl, rfl⟩
  · intro g m hg hw hm hst
    rw [(joinGroup_rejected_eq fx db now gid u hg hw hm hst).1]
  · intro g hg hw hm hcap
    exact joinGroup_full_eq fx db now gid u hg hw hm hcap
  · intro g hg hw hm hcap
    rw [(joinGroup_insert_eq fx db now gid u hg hw hm hcap).1]

theorem join_http_codes_witness :
    findGroup db0 "g" = none ∧
    joinGroup fxAll db0 0 "g" "u" = ({ status := 404, body := "Group not found" }, db0) :=
  ⟨by decide, (join_http_codes fxAll db0 0 "g" "u").1 (by decide)⟩

/-- C9 counterexample: LogActivity performs exactly one db.Create.  With an
oracle where every log write fails, the write is attempted once — not up to 3
times — and no backoff sleep is performed. -/
theorem log_no_retry_counterexample :
    (logActivity fxNoLog db0 0 "u" "join_group_request" "g").2.2.1 = 1 ∧
    ¬((logActivity fxNoLog db0 0 "u" "join_group_request" "g").2.2.1 = 3) ∧
    (logActivity fxNoLog db0 0 "u" "join_group_request" "g").2.2.2 = ([] : List Int) ∧
    (logActivity fxNoLog db0 0 "u" "join_group_request" "g").2.1 = false := by
  decide

/-- C9 amended: the activity-log write is attempted exactly once with no
backoff sleeps (there is no retry loop), and a logging failure never changes
the outcome of the primary operation: under any oracle — including one where
every log write fails — a join request that satisfies the guards still
returns 201. -/
theorem log_single_attempt_nonfatal (fx : SideFx) (db : DB) (now : Int)
    (a e l gid u : String) (g : Group)
    (hg : findGroup db gid = some g) (hw : windowOpen now g)
    (hm : findMember db gid u = none)
    (hcap : (approvedCount db gid : Int) < g.maxMembers) :
    (logActivity fx db now a e l).2.2.1 = 1 ∧
    (logActivity fx db now a e l).2.2.2 = ([] : List Int) ∧
    (joinGroup fx db now gid u).1 = { status := 201, body := "Join request submitted" } := by
  refine ⟨?_, ?_, (joinGroup_insert_eq fx db now gid u hg hw hm hcap).1⟩
  · unfold logActivity
    split <;> rfl
  · unfold logActivity
    split <;> rfl

theorem log_single_attempt_nonfatal_witness :
    (findGroup dbW "g1" = some gW ∧ windowOpen 0 gW ∧
     findMember dbW "g1" "alice" = none ∧
     (approvedCount dbW "g1" : Int) < gW.maxMembers) ∧
    ((logActivity fxNoLog dbW 0 "alice" "join_group_request" "g1").2.2.1 = 1 ∧
     (logActivity fxNoLog dbW 0 "alice" "join_group_request" "g1").2.2.2 = ([] : List Int) ∧
     (joinGroup fxNoLog dbW 0 "g1" "alice").1
       = { status := 201, body := "Join request submitted" }) :=
  ⟨⟨by decide, by constructor <;> decide, by decide, by decide⟩,
   log_single_attempt_nonfatal fxNoLog dbW 0 "alice" "join_group_request" "g1" "g1" "alice" gW
     (by decide) (by constructor <;> decide) (by decide) (by decide)⟩

/-- C10: when the organiser of a group in a reachable store calls JoinGroup on
their own group while the window is open, the request hits the
existing-approved-membership branch: 409 Conflict, Already a member — not
403 Forbidden — and the store is unchanged. -/
theorem organiser_join_conflict (db : DB) (h : Reachable db) (fx : SideFx) (now : Int)
    (gid : String) (g : Group)
    (hg : findGroup db gid = some g) (hw : windowOpen now g) :
    joinGroup fx db now gid g.organiserID
      = ({ status := 409, body := "Already a member" }, db) := by
  have hinv := inv_reachable h
  obtain ⟨hgmem, hgid⟩ := findGroup_some hg
  obtain ⟨morg, hmorg, k1, k2, k3⟩ := hinv.orgApproved g hgmem
  have hfm : findMember db gid g.organiserID = some morg := by
    have hfind := findMember_eq_of_mem hinv.memKeysUnique hmorg
    rw [k1, k2, hgid] at hfind
    exact hfind
  exact joinGroup_approved_eq fx db now gid g.organiserID hg hw hfm k3

theorem organiser_join_conflict_witness :
    (Reachable dbW ∧ findGroup dbW "g1" = some gW ∧ windowOpen 0 gW) ∧
    joinGroup fxAll dbW 0 "g1" gW.organiserID
      = ({ status := 409, body := "Already a member" }, dbW) :=
  ⟨⟨reachable_dbW, by decide, by constructor <;> decide⟩,
   organiser_join_conflict dbW reachable_dbW fxAll 0 "g1" gW
     (by decide) (by constructor <;> decide)⟩

end Groops
